import Mathlib

/-!
Verification of the rt-monitor sampling-and-delivery pipeline
(ska-telescope/ska-sdp-benchmark-monitor).

Shallow embedding of the C++ sources under `src/benchmon/rt-monitor/`:

* `inc/thread_safe_queue.hpp` — `ThreadSafeQueue<T>` (push / pop / stop);
* `inc/pause_manager.h`       — `pause_manager` (wait_if_paused / resume / stop),
  modelled as an explicit interleaving machine for the waiter/stopper race;
* `inc/db_stream.hpp`         — `db_stream` batching (write_line / flush) and
  `AsyncInfluxDBWriter::send_request` retry logic;
* `src/cpu_monitor.cpp`, `src/disk_monitor.cpp`, `src/net_monitor.cpp` —
  snapshot types, their subtraction operators and the consumer loops;
* `src/main.cpp`              — `get_batch_size`.

Machine integers are modelled as `Nat`/`Int`; `uint64_t` subtraction wraps
modulo 2^64 and is made explicit where the source relies on it.  Fallible
operations return `Except`/`Option`.  The file is organised as definitions
first, then theorems.
-/

namespace RtMonitor

/-! ## ThreadSafeQueue (inc/thread_safe_queue.hpp)

State of one queue instance: the FIFO contents and the `stop_` flag.
`push` appends unconditionally (the source takes the lock and pushes, with no
check of `stop_`); `stop` sets the flag; `pop` waits until the queue is
non-empty or stopped, returns `false` ("closed") when empty-and-stopped, and
otherwise removes the front element.  In the sequential setting considered by
the claims (all pushes and the close precede the drain) the wait never blocks,
which the `blocked` result makes explicit. -/

structure TSQueue (T : Type) where
  queue : List T
  stopFlag : Bool
deriving Repr, DecidableEq

/-- Result of one `pop` call: an item, `closed` (the C++ `return false` after
stop with an empty queue), or `blocked` (the condition-variable wait would not
return: queue empty and not stopped, with no producer left). -/
inductive PopResult (T : Type) where
  | item : T → PopResult T
  | closed : PopResult T
  | blocked : PopResult T
deriving Repr, DecidableEq

namespace TSQueue

def empty (T : Type) : TSQueue T := ⟨[], false⟩

/-- `ThreadSafeQueue::push` (lines 19–26): appends the item, no check of `stop_`. -/
def push (q : TSQueue T) (item : T) : TSQueue T :=
  { q with queue := q.queue ++ [item] }

/-- `ThreadSafeQueue::stop` (lines 66–73): sets `stop_`. -/
def stop (q : TSQueue T) : TSQueue T :=
  { q with stopFlag := true }

/-- `ThreadSafeQueue::pop` (lines 28–41): wait until non-empty or stopped;
if empty and stopped return `false` (closed); otherwise take the front. -/
def pop (q : TSQueue T) : PopResult T × TSQueue T :=
  match q.queue, q.stopFlag with
  | [], true => (PopResult.closed, q)
  | [], false => (PopResult.blocked, q)
  | x :: rest, _ => (PopResult.item x, { q with queue := rest })

/-- A sequence of pushes, in order. -/
def pushAll (q : TSQueue T) (items : List T) : TSQueue T :=
  items.foldl push q

/-- `n` consecutive `pop` calls, collecting the results. -/
def popN (q : TSQueue T) : Nat → List (PopResult T) × TSQueue T
  | 0 => ([], q)
  | n + 1 =>
      let r := q.pop
      let rest := r.2.popN n
      (r.1 :: rest.1, rest.2)

end TSQueue

/-! ## pause_manager (inc/pause_manager.h)

An interleaving machine for two threads: a *waiter* executing
`wait_if_paused()` (lines 77–86) and a *stopper* executing `stop()`
(lines 60–65).  The shared state holds the `paused` and `stopped` atomics,
whether `pause_mutex` is held, and each thread's program counter.

The fidelity points taken from the source:

* `wait_if_paused` first reads `paused()` without the lock, then acquires
  `pause_mutex`, and `condition_variable().wait(lock, pred)` repeatedly
  evaluates `pred = !paused || stopped` under the lock and, when it is false,
  atomically releases the lock and blocks in the wait set;
* `stop()` writes `stopped = true` **without taking `pause_mutex`** (line 63)
  and then calls `notify_all()`;
* `notify_all` wakes exactly the threads that are in the wait set at that
  moment; a woken thread reacquires the lock and re-evaluates the predicate.
  The model has no spurious wakeups (the standard does not guarantee any). -/

inductive WaiterPc where
  /-- about to execute the unlocked `if (paused())` check -/
  | start
  /-- holds `pause_mutex`, about to evaluate the wait predicate -/
  | locked
  /-- evaluated the predicate to false under the lock; about to atomically
  release the lock and enter the condition-variable wait set -/
  | predFalse
  /-- blocked in the wait set (lock released) -/
  | waiting
  /-- removed from the wait set by `notify_all`; must reacquire the lock -/
  | woken
  /-- `wait_if_paused()` returned -/
  | done
deriving Repr, DecidableEq

inductive StopperPc where
  /-- about to execute `singleton_.stopped = true` (no lock taken) -/
  | setFlag
  /-- about to execute `condition_variable().notify_all()` -/
  | notify
  /-- `stop()` returned -/
  | done
deriving Repr, DecidableEq

structure PMState where
  paused : Bool
  stopped : Bool
  lockHeld : Bool
  waiter : WaiterPc
  stopper : StopperPc
deriving Repr, DecidableEq

inductive Tid where
  | waiter
  | stopper
deriving Repr, DecidableEq

/-- One atomic step of the chosen thread; a thread that cannot move (blocked
on the mutex or in the wait set, or finished) leaves the state unchanged. -/
def pmStep (s : PMState) : Tid → PMState
  | Tid.waiter =>
      match s.waiter with
      | WaiterPc.start =>
          if s.paused then
            if s.lockHeld then s
            else { s with lockHeld := true, waiter := WaiterPc.locked }
          else { s with waiter := WaiterPc.done }
      | WaiterPc.locked =>
          if !s.paused || s.stopped then
            { s with lockHeld := false, waiter := WaiterPc.done }
          else { s with waiter := WaiterPc.predFalse }
      | WaiterPc.predFalse =>
          { s with lockHeld := false, waiter := WaiterPc.waiting }
      | WaiterPc.waiting => s
      | WaiterPc.woken =>
          if s.lockHeld then s
          else { s with lockHeld := true, waiter := WaiterPc.locked }
      | WaiterPc.done => s
  | Tid.stopper =>
      match s.stopper with
      | StopperPc.setFlag => { s with stopped := true, stopper := StopperPc.notify }
      | StopperPc.notify =>
          { s with
            stopper := StopperPc.done,
            waiter := if s.waiter = WaiterPc.waiting then WaiterPc.woken else s.waiter }
      | StopperPc.done => s

/-- Run a schedule (a sequence of thread choices). -/
def pmRun (s : PMState) (sched : List Tid) : PMState :=
  sched.foldl pmStep s

/-- Initial state: monitoring paused (the process starts paused), not stopped,
mutex free, waiter entering `wait_if_paused()`, stopper entering `stop()`. -/
def pmInit : PMState :=
  ⟨true, false, false, WaiterPc.start, StopperPc.setFlag⟩

/-! ## db_stream batching (inc/db_stream.hpp)

`db_stream` keeps a text buffer, a configured batch size and a line counter.
`write_line` (lines 227–238) appends a `"\n"` separator when the buffer is
non-empty, appends the line, increments the counter, and calls `flush` when
the counter has reached the batch size.  `flush` (lines 217–225) returns
immediately on an empty buffer and otherwise hands the buffer to the
`AsyncInfluxDBWriter` (`writer_->push`), clears the buffer and zeroes the
counter.  The model records the handed-off payloads in `sent`, oldest
first. -/

structure DbStream where
  buffer : String
  batchSize : Nat
  count : Nat
  sent : List String
deriving Repr, DecidableEq

namespace DbStream

/-- A fresh stream with batch size `n` (`batch_size_` set via
`set_buffer_size`, empty buffer, zero counter, nothing handed off). -/
def init (n : Nat) : DbStream := ⟨"", n, 0, []⟩

/-- `db_stream::flush` (lines 217–225). -/
def flush (s : DbStream) : DbStream :=
  if s.buffer.isEmpty then s
  else { s with sent := s.sent ++ [s.buffer], buffer := "", count := 0 }

/-- `db_stream::write_line` (lines 227–238). -/
def write_line (s : DbStream) (line : String) : DbStream :=
  let buf := if s.buffer.isEmpty then s.buffer ++ line else s.buffer ++ "\n" ++ line
  let s1 : DbStream := { s with buffer := buf, count := s.count + 1 }
  if s1.batchSize ≤ s1.count then s1.flush else s1

/-- A sequence of `write_line` calls. -/
def writeLines (s : DbStream) (ls : List String) : DbStream :=
  ls.foldl write_line s

/-- Client-visible operations on a `db_stream`. -/
inductive Op where
  | write (line : String)
  | doFlush
deriving Repr, DecidableEq

def applyOp (s : DbStream) : Op → DbStream
  | Op.write l => s.write_line l
  | Op.doFlush => s.flush

def runOps (s : DbStream) (ops : List Op) : DbStream :=
  ops.foldl applyOp s

/-- The lines appended by a sequence of operations, in order. -/
def writesOf (ops : List Op) : List String :=
  ops.filterMap fun o =>
    match o with
    | Op.write l => some l
    | Op.doFlush => none

end DbStream

/-- Newline join as built incrementally by `db_stream::write_line`: lines
joined by single `"\n"` separators, with no trailing newline. -/
def joinNL : List String → String
  | [] => ""
  | [l] => l
  | l :: l2 :: rest => l ++ "\n" ++ joinNL (l2 :: rest)

/-! ## get_batch_size (src/main.cpp, lines 164–185)

The per-metric default batch-size policy.  C++ `int` division truncates
toward zero, hence `Int.tdiv`. -/

def get_batch_size (metric : String) (base_batch_size : Int) : Int :=
  if metric = "cpu" ∨ metric = "cpufreq" then base_batch_size
  else if metric = "mem" ∨ metric = "disk" ∨ metric = "ib" then
    let size := base_batch_size.tdiv 100
    if size < 10 then 10 else size
  else if metric = "net" then
    let size := base_batch_size.tdiv 10
    if size < 10 then 10 else size
  else base_batch_size

/-! ## Snapshot types and their subtraction (src/cpu_monitor.cpp,
src/disk_monitor.cpp, src/net_monitor.cpp)

Timestamps are nanoseconds since the epoch (`Int`); `uint64_t` counters are
`Nat` and their C++ subtraction wraps modulo 2^64; `long long int` fields are
`Int`.  The cpu `operator-=` guards the entity key with `assert` (a failed
assertion aborts), the disk one throws `std::invalid_argument`; both are
modelled as `Except`. -/

/-- Wrapping subtraction of two C++ `uint64_t` values. -/
def sub64 (a b : Nat) : Nat := (a % 2 ^ 64 + 2 ^ 64 - b % 2 ^ 64) % 2 ^ 64

/-- `cpu::data_sample` (src/cpu_monitor.cpp lines 15–52). -/
structure CpuSample where
  timestamp : Int
  cpuid : Nat
  user_value : Nat
  nice_value : Nat
  system_value : Nat
  idle_value : Nat
  iowait_value : Nat
  irq_value : Nat
  softirq_value : Nat
  steal_value : Nat
  guest_value : Nat
  guestnice_value : Nat
deriving Repr, DecidableEq

/-- `cpu::data_sample::operator-` / `operator-=` (lines 30–51):
`assert(sample.cpuid == cpuid)` then field-wise `uint64_t` subtraction. -/
def CpuSample.sub (a b : CpuSample) : Except String CpuSample :=
  if a.cpuid = b.cpuid then
    Except.ok
      { a with
        user_value := sub64 a.user_value b.user_value,
        nice_value := sub64 a.nice_value b.nice_value,
        system_value := sub64 a.system_value b.system_value,
        idle_value := sub64 a.idle_value b.idle_value,
        iowait_value := sub64 a.iowait_value b.iowait_value,
        irq_value := sub64 a.irq_value b.irq_value,
        softirq_value := sub64 a.softirq_value b.softirq_value,
        steal_value := sub64 a.steal_value b.steal_value,
        guest_value := sub64 a.guest_value b.guest_value,
        guestnice_value := sub64 a.guestnice_value b.guestnice_value }
  else Except.error "assertion failed: sample.cpuid == cpuid"

/-- `disk::data_sample` (src/disk_monitor.cpp lines 25–82). -/
structure DiskSample where
  timestamp : Int
  major : Nat
  minor : Nat
  index : Nat
  device : String
  rd_completed : Nat
  rd_merged : Nat
  sectors_read : Nat
  time_read : Nat
  wr_completed : Nat
  wr_merged : Nat
  sectors_written : Nat
  time_write : Nat
  io_in_progress : Nat
  time_io : Nat
  time_weighted_io : Nat
  disc_completed : Nat
  disc_merged : Nat
  sectors_discarded : Nat
  time_discard : Nat
  flush_requests : Nat
  time_flush : Nat
deriving Repr, DecidableEq

/-- `disk::data_sample::operator-` / `operator-=` (lines 50–81): throws
`std::invalid_argument` when device, major, minor or index differ, otherwise
field-wise `uint64_t` subtraction. -/
def DiskSample.sub (a b : DiskSample) : Except String DiskSample :=
  if a.device ≠ b.device ∨ a.major ≠ b.major ∨ a.minor ≠ b.minor ∨
      a.index ≠ b.index then
    Except.error "Cannot subtract samples from different devices"
  else
    Except.ok
      { a with
        rd_completed := sub64 a.rd_completed b.rd_completed,
        rd_merged := sub64 a.rd_merged b.rd_merged,
        sectors_read := sub64 a.sectors_read b.sectors_read,
        time_read := sub64 a.time_read b.time_read,
        wr_completed := sub64 a.wr_completed b.wr_completed,
        wr_merged := sub64 a.wr_merged b.wr_merged,
        sectors_written := sub64 a.sectors_written b.sectors_written,
        time_write := sub64 a.time_write b.time_write,
        io_in_progress := sub64 a.io_in_progress b.io_in_progress,
        time_io := sub64 a.time_io b.time_io,
        time_weighted_io := sub64 a.time_weighted_io b.time_weighted_io,
        disc_completed := sub64 a.disc_completed b.disc_completed,
        disc_merged := sub64 a.disc_merged b.disc_merged,
        sectors_discarded := sub64 a.sectors_discarded b.sectors_discarded,
        time_discard := sub64 a.time_discard b.time_discard,
        flush_requests := sub64 a.flush_requests b.flush_requests,
        time_flush := sub64 a.time_flush b.time_flush }

/-- `net::data_sample` (src/net_monitor.cpp lines 17–58): whole-system
aggregate, `long long int` byte counters. -/
structure NetData where
  timestamp : Int
  transferred : Int
  received : Int
deriving Repr, DecidableEq

/-- `net::rate_sample` (src/net_monitor.cpp lines 10–15). -/
structure NetRate where
  timestamp : Int
  transferred : Int
  received : Int
deriving Repr, DecidableEq

/-- `static_cast<long long int>` applied to a real value: truncation toward
zero, on the exact rational value of the expression. -/
def ratTrunc (q : ℚ) : Int := q.num.tdiv (q.den : Int)

/-- `net::data_sample::operator-` (src/net_monitor.cpp lines 37–57):
`dt` is the elapsed time in seconds; non-positive `dt` yields zero rates,
otherwise byte differences divided by `1024 * dt`.  The C++ `double`
arithmetic is modelled exactly over `ℚ`. -/
def NetData.sub (a b : NetData) : NetRate :=
  let dt : ℚ := ((a.timestamp - b.timestamp : Int) : ℚ) / 1000000000
  if dt ≤ 0 then
    { timestamp := a.timestamp, transferred := 0, received := 0 }
  else
    { timestamp := a.timestamp,
      transferred := ratTrunc (((a.transferred - b.transferred : Int) : ℚ) / (1024 * dt)),
      received := ratTrunc (((a.received - b.received : Int) : ℚ) / (1024 * dt)) }

/-! ## Consumer loops

`cpu::start_sampling<db_stream>` (src/cpu_monitor.cpp lines 240–254) pops
each snapshot set from the queue and streams it directly — one line per
per-core sample, no diff stage and no retained baseline.

`net::start_sampling<db_stream>` (src/net_monitor.cpp lines 208–255) reads a
first cumulated sample into `samples[0]` before the loop; each iteration
reads the current sample into `samples[1 - last_index]`, forwards
`current - samples[last_index]` and flips `last_index`.  The second array
slot starts value-initialised (all zero). -/

/-- The samples forwarded to the db stream by the cpu consumer loop, given
the queue's successive snapshot sets. -/
def cpuStartSamplingDb : List (List CpuSample) → List CpuSample
  | [] => []
  | s :: rest => s ++ cpuStartSamplingDb rest

/-- The net consumer loop body over the two-element sample array:
`samples` is the array, `lastIndexOne` says whether `last_index = 1`,
and the list holds the successive results of `read_cumulated_sample()`. -/
def netLoop (samples : NetData × NetData) (lastIndexOne : Bool) :
    List NetData → List NetRate
  | [] => []
  | r :: rest =>
      let last := if lastIndexOne then samples.2 else samples.1
      let samples2 := if lastIndexOne then (r, samples.2) else (samples.1, r)
      NetData.sub r last :: netLoop samples2 (!lastIndexOne) rest

/-- The rate samples forwarded by `net::start_sampling<db_stream>` given the
successive results of `read_cumulated_sample()` (the first one is read before
the loop into `samples[0]`; `last_index` starts at 0). -/
def netStartSamplingDb : List NetData → List NetRate
  | [] => []
  | r0 :: rest => netLoop (r0, ⟨0, 0, 0⟩) false rest

/-! ## AsyncInfluxDBWriter::send_request (inc/db_stream.hpp, lines 112–159)

The send loop transmits a request of `len` bytes: while fewer than `len`
bytes have been sent, `send()` either accepts some bytes or fails; on a
failure the socket is closed, one reconnect is attempted, and on success the
whole request is retransmitted from the beginning (`total_sent = 0`), while a
failed reconnect gives the batch up.  The network is an oracle: `sends` is
the list of successive `send()` results and `conns` the list of successive
reconnect results.  `connBytes` records how many bytes each connection
accepted, in order (connections closed by a failure, then the connection the
call ends on). -/

inductive SendEv where
  | ok (n : Nat)
  | fail
deriving Repr, DecidableEq

structure SendOutcome where
  delivered : Bool
  reconnects : Nat
  dropped : Bool
  connBytes : List Nat
deriving Repr, DecidableEq

/-- The `while (total_sent < req_str.length())` loop of `send_request`. -/
def sendLoop (len : Nat) (totalSent : Nat) :
    List SendEv → List Bool → SendOutcome
  | sends, conns =>
      if len ≤ totalSent then
        { delivered := true, reconnects := 0, dropped := false,
          connBytes := [totalSent] }
      else
        match sends with
        | [] =>
            { delivered := false, reconnects := 0, dropped := false,
              connBytes := [totalSent] }
        | SendEv.ok n :: rest => sendLoop len (totalSent + n) rest conns
        | SendEv.fail :: rest =>
            match conns with
            | [] =>
                { delivered := false, reconnects := 1, dropped := true,
                  connBytes := [totalSent] }
            | true :: cr =>
                let r := sendLoop len 0 rest cr
                { r with
                  reconnects := r.reconnects + 1,
                  connBytes := totalSent :: r.connBytes }
            | false :: _ =>
                { delivered := false, reconnects := 1, dropped := true,
                  connBytes := [totalSent] }

/-- `AsyncInfluxDBWriter::send_request`: connect first if not connected (a
failed initial connect returns without sending), then run the send loop. -/
def send_request (len : Nat) (connected : Bool) (sends : List SendEv)
    (conns : List Bool) : SendOutcome :=
  if connected then sendLoop len 0 sends conns
  else
    match conns with
    | [] =>
        { delivered := false, reconnects := 0, dropped := true, connBytes := [] }
    | true :: cr => sendLoop len 0 sends cr
    | false :: _ =>
        { delivered := false, reconnects := 0, dropped := true, connBytes := [] }

end RtMonitor

/-! # Theorems -/

open RtMonitor

namespace RtMonitor.TSQueue

theorem pushAll_queue (q : TSQueue T) (items : List T) :
    (q.pushAll items).queue = q.queue ++ items := by
  induction items generalizing q with
  | nil => simp [pushAll]
  | cons x xs ih =>
      simp [pushAll] at ih ⊢
      rw [ih]
      simp [push]

theorem pushAll_stopFlag (q : TSQueue T) (items : List T) :
    (q.pushAll items).stopFlag = q.stopFlag := by
  induction items generalizing q with
  | nil => rfl
  | cons x xs ih =>
      simp [pushAll] at ih ⊢
      rw [ih]
      rfl

/-- Draining a stopped queue: `l.length + 1` pops return the items in order and
then `closed`. -/
theorem popN_drain (l : List T) :
    (popN ⟨l, true⟩ (l.length + 1)).1 = l.map PopResult.item ++ [PopResult.closed] := by
  induction l with
  | nil => rfl
  | cons x xs ih =>
      simp [popN, pop]
      exact ih

end RtMonitor.TSQueue

/-- C1. For every finite sequence of `push(item)` calls on one
`ThreadSafeQueue` followed by a single close (`stop()`), a consumer that
repeatedly calls `pop()` receives every pushed item exactly once, in the order
the items were pushed, and only after the last item does `pop()` report
"closed" (return `false`). -/
theorem C1_fifo_drain_then_closed (T : Type) (items : List T) :
    (((TSQueue.empty T).pushAll items).stop.popN (items.length + 1)).1 =
      items.map PopResult.item ++ [PopResult.closed] := by
  have hq : ((TSQueue.empty T).pushAll items).stop = ⟨items, true⟩ := by
    have h1 := TSQueue.pushAll_queue (TSQueue.empty T) items
    cases h : (TSQueue.empty T).pushAll items with
    | mk qu st =>
        rw [h] at h1
        simp [TSQueue.empty] at h1
        simp [TSQueue.stop, h1]
  rw [hq]
  exact TSQueue.popN_drain items

/-- C3 counterexample. A `push` performed after `stop()` does add the item:
pushing `5` onto a freshly closed queue leaves the queue holding `[5]`, not
the unchanged (empty) queue the claim requires. -/
theorem C3_push_after_stop_adds_item :
    (((TSQueue.empty Nat).stop).push 5).queue = [5] ∧
      (((TSQueue.empty Nat).stop).push 5).queue ≠ ((TSQueue.empty Nat).stop).queue := by
  constructor
  · rfl
  · decide

/-- C3 amended. `stop()` does not reject later pushes: a push after the close
still appends its item, and a consumer drains every enqueued item — those
pushed before and after the close, in push order — before `pop()` reports
"no more data". -/
theorem C3_drain_includes_post_stop_pushes (T : Type) (pre post : List T) :
    ((((TSQueue.empty T).pushAll pre).stop.pushAll post).popN
        ((pre ++ post).length + 1)).1 =
      (pre ++ post).map PopResult.item ++ [PopResult.closed] := by
  have hq : ((TSQueue.empty T).pushAll pre).stop.pushAll post =
      ⟨pre ++ post, true⟩ := by
    have h1 := TSQueue.pushAll_queue (TSQueue.empty T) pre
    have h2 := TSQueue.pushAll_queue (((TSQueue.empty T).pushAll pre).stop) post
    have h3 := TSQueue.pushAll_stopFlag (((TSQueue.empty T).pushAll pre).stop) post
    cases h : ((TSQueue.empty T).pushAll pre).stop.pushAll post with
    | mk qu st =>
        rw [h] at h2 h3
        simp [TSQueue.stop, TSQueue.empty] at h1 h2 h3
        simp [h2, h3, h1]
  rw [hq]
  exact TSQueue.popN_drain (pre ++ post)

/-- Sanity check of the pause_manager model: a waiter that is already blocked
in the condition-variable wait set when `stop()` runs is woken by
`notify_all`, reacquires the lock, re-evaluates the predicate (now true, since
`stopped` is set) and returns. -/
theorem pm_stop_wakes_already_blocked_waiter :
    (pmRun pmInit
        [Tid.waiter, Tid.waiter, Tid.waiter, Tid.stopper, Tid.stopper,
         Tid.waiter, Tid.waiter]).waiter = WaiterPc.done := by
  decide

/-- C2 (failing schedule). The waiter enters `wait_if_paused()`, acquires the
lock and evaluates the wait predicate to false; then the whole of `stop()`
runs — it sets `stopped` without taking `pause_mutex` and its `notify_all`
finds an empty wait set; then the waiter blocks.  The resulting state has
`stop()` completed and the waiter in the wait set, and it is a fixpoint of
both threads' steps: the wakeup is missed and the waiter is blocked forever,
contradicting the claim that `stop()` always wakes a paused thread within a
bounded time. -/
theorem C2_stop_missed_wakeup :
    (pmRun pmInit
        [Tid.waiter, Tid.waiter, Tid.stopper, Tid.stopper, Tid.waiter]).stopped = true ∧
      (pmRun pmInit
        [Tid.waiter, Tid.waiter, Tid.stopper, Tid.stopper, Tid.waiter]).stopper =
        StopperPc.done ∧
      (pmRun pmInit
        [Tid.waiter, Tid.waiter, Tid.stopper, Tid.stopper, Tid.waiter]).waiter =
        WaiterPc.waiting ∧
      pmStep (pmRun pmInit
        [Tid.waiter, Tid.waiter, Tid.stopper, Tid.stopper, Tid.waiter]) Tid.waiter =
        pmRun pmInit [Tid.waiter, Tid.waiter, Tid.stopper, Tid.stopper, Tid.waiter] ∧
      pmStep (pmRun pmInit
        [Tid.waiter, Tid.waiter, Tid.stopper, Tid.stopper, Tid.waiter]) Tid.stopper =
        pmRun pmInit [Tid.waiter, Tid.waiter, Tid.stopper, Tid.stopper, Tid.waiter] := by
  decide

namespace RtMonitor

theorem joinNL_append_single (p : List String) (l : String) :
    joinNL (p ++ [l]) = if p.isEmpty then l else joinNL p ++ "\n" ++ l := by
  induction p with
  | nil => rfl
  | cons x xs ih =>
      cases xs with
      | nil => rfl
      | cons y ys =>
          have h1 : joinNL ((x :: y :: ys) ++ [l]) =
              x ++ "\n" ++ joinNL ((y :: ys) ++ [l]) := rfl
          rw [h1, ih]
          simp [joinNL, String.append_assoc]

theorem joinNL_ne_empty (p : List String) (hp : p ≠ [])
    (hne : ∀ x ∈ p, x ≠ "") : joinNL p ≠ "" := by
  match p with
  | [] => exact absurd rfl hp
  | [l] =>
      simp only [joinNL]
      exact hne l (by simp)
  | l :: l2 :: rest =>
      simp only [joinNL]
      intro h
      have hlen := congrArg String.length h
      rw [String.length_append, String.length_append] at hlen
      have h1 : ("\n" : String).length = 1 := rfl
      have h2 : ("" : String).length = 0 := rfl
      omega

theorem joinNL_isEmpty (p : List String) (hne : ∀ x ∈ p, x ≠ "") :
    (joinNL p).isEmpty = p.isEmpty := by
  cases p with
  | nil => rfl
  | cons x xs =>
      simp only [List.isEmpty_cons]
      cases h : (joinNL (x :: xs)).isEmpty with
      | false => rfl
      | true =>
          exact absurd ((String.isEmpty_iff _).mp h)
            (joinNL_ne_empty (x :: xs) (by simp) hne)

/-- Behaviour of `write_line` on the abstract state whose buffer holds the
pending lines `pending`: the new line is appended to the pending group, and
the batch is handed off exactly when the group reaches the batch size. -/
theorem write_line_abs (N : Nat) (pending : List String) (sent : List String)
    (l : String) (hlen : pending.length < N)
    (hpne : ∀ x ∈ pending, x ≠ "") (hl : l ≠ "") :
    DbStream.write_line ⟨joinNL pending, N, pending.length, sent⟩ l =
      if pending.length + 1 = N then
        ⟨joinNL [], N, List.length ([] : List String),
          sent ++ [joinNL (pending ++ [l])]⟩
      else
        ⟨joinNL (pending ++ [l]), N, (pending ++ [l]).length, sent⟩ := by
  have hbuf :
      (if (joinNL pending).isEmpty then joinNL pending ++ l
        else joinNL pending ++ "\n" ++ l) = joinNL (pending ++ [l]) := by
    rw [joinNL_isEmpty pending hpne, joinNL_append_single]
    cases p : pending.isEmpty with
    | true =>
        have : pending = [] := by
          cases pending with
          | nil => rfl
          | cons a as => simp at p
        simp [this, joinNL, String.empty_append]
    | false => simp
  simp only [DbStream.write_line, hbuf]
  by_cases hflush : pending.length + 1 = N
  · have hc : N ≤ pending.length + 1 := le_of_eq hflush.symm
    simp only [if_pos hc, if_pos hflush]
    have hne2 : joinNL (pending ++ [l]) ≠ "" :=
      joinNL_ne_empty _ (by simp) (by
        intro x hx
        rcases List.mem_append.mp hx with h | h
        · exact hpne x h
        · simp at h; simpa [h])
    simp only [DbStream.flush]
    rw [if_neg (by simpa [String.isEmpty_iff] using hne2)]
    rfl
  · have hc : ¬ N ≤ pending.length + 1 := by omega
    simp only [if_neg hc, if_neg hflush]
    simp

/-- Running `write_line` over a list of non-empty lines from the abstract
state: the handed-off payloads extend by the `joinNL` of consecutive groups of
exactly `N` lines, and fewer than `N` lines stay pending in the buffer. -/
theorem writeLines_groups (N : Nat) (hN : 0 < N) :
    ∀ (ls pending sent : List String),
      pending.length < N → (∀ x ∈ pending, x ≠ "") → (∀ l ∈ ls, l ≠ "") →
      ∃ (groups : List (List String)) (leftover : List String),
        DbStream.writeLines ⟨joinNL pending, N, pending.length, sent⟩ ls =
          ⟨joinNL leftover, N, leftover.length, sent ++ groups.map joinNL⟩ ∧
        (∀ g ∈ groups, g.length = N) ∧
        groups.flatten ++ leftover = pending ++ ls ∧
        leftover.length < N ∧ (∀ x ∈ leftover, x ≠ "") := by
  intro ls
  induction ls with
  | nil =>
      intro pending sent hlen hpne _
      refine ⟨[], pending, ?_, ?_, ?_, hlen, hpne⟩
      · simp [DbStream.writeLines]
      · intro g hg
        simp at hg
      · simp
  | cons l ls ih =>
      intro pending sent hlen hpne hls
      have hl : l ≠ "" := hls l (by simp)
      have hstep := write_line_abs N pending sent l hlen hpne hl
      by_cases hflush : pending.length + 1 = N
      · rw [if_pos hflush] at hstep
        obtain ⟨groups, leftover, heq, hsize, hjoin, hleft, hlne⟩ :=
          ih [] (sent ++ [joinNL (pending ++ [l])]) (by simpa using hN)
            (by simp) (fun x hx => hls x (by simp [hx]))
        refine ⟨(pending ++ [l]) :: groups, leftover, ?_, ?_, ?_, hleft, hlne⟩
        · have : DbStream.writeLines ⟨joinNL pending, N, pending.length, sent⟩
              (l :: ls) =
              DbStream.writeLines
                ⟨joinNL [], N, List.length ([] : List String),
                  sent ++ [joinNL (pending ++ [l])]⟩ ls := by
            simp only [DbStream.writeLines, List.foldl_cons]
            rw [hstep]
          rw [this, heq]
          simp
        · intro g hg
          rcases List.mem_cons.mp hg with h | h
          · simp [h, hflush]
          · exact hsize g h
        · simp only [List.flatten_cons, List.append_assoc]
          simp at hjoin
          rw [hjoin]
          simp
      · rw [if_neg hflush] at hstep
        have hlen2 : (pending ++ [l]).length < N := by
          simp only [List.length_append, List.length_cons, List.length_nil]
          omega
        obtain ⟨groups, leftover, heq, hsize, hjoin, hleft, hlne⟩ :=
          ih (pending ++ [l]) sent hlen2
            (by
              intro x hx
              rcases List.mem_append.mp hx with h | h
              · exact hpne x h
              · simp at h; simpa [h])
            (fun x hx => hls x (by simp [hx]))
        refine ⟨groups, leftover, ?_, hsize, ?_, hleft, hlne⟩
        · have : DbStream.writeLines ⟨joinNL pending, N, pending.length, sent⟩
              (l :: ls) =
              DbStream.writeLines
                ⟨joinNL (pending ++ [l]), N, (pending ++ [l]).length, sent⟩ ls := by
            simp only [DbStream.writeLines, List.foldl_cons]
            rw [hstep]
          rw [this, heq]
        · rw [hjoin]
          simp

end RtMonitor

/-- C5. For a `db_stream` configured with batch size `N > 0` and fed any
sequence of non-empty lines (every line-protocol line this program writes is
non-empty), the handed-off payloads are exactly the consecutive groups of
exactly `N` lines, joined by newlines, in order — the automatic handoff in
`write_line` fires exactly on each `N`-th appended line, never before and
never after — and fewer than `N` lines remain buffered; a `flush()` call on a
non-empty partial batch hands it off and resets the buffer and counter. -/
theorem C5_handoff_exactly_at_batch_size (N : Nat) (hN : 0 < N)
    (ls : List String) (hls : ∀ l ∈ ls, l ≠ "") :
    ∃ (groups : List (List String)) (leftover : List String),
      (DbStream.writeLines (DbStream.init N) ls).sent = groups.map joinNL ∧
      (∀ g ∈ groups, g.length = N) ∧
      groups.flatten ++ leftover = ls ∧
      leftover.length < N ∧
      (DbStream.writeLines (DbStream.init N) ls).buffer = joinNL leftover ∧
      (DbStream.writeLines (DbStream.init N) ls).count = leftover.length ∧
      (leftover ≠ [] →
        ((DbStream.writeLines (DbStream.init N) ls).flush).sent =
            groups.map joinNL ++ [joinNL leftover] ∧
          ((DbStream.writeLines (DbStream.init N) ls).flush).buffer = "" ∧
          ((DbStream.writeLines (DbStream.init N) ls).flush).count = 0) := by
  obtain ⟨groups, leftover, heq, hsize, hjoin, hleft, hlne⟩ :=
    RtMonitor.writeLines_groups N hN ls [] [] (by simpa using hN) (by simp) hls
  have hinit : DbStream.init N =
      (⟨joinNL [], N, List.length ([] : List String), []⟩ : DbStream) := rfl
  rw [hinit, heq] at *
  refine ⟨groups, leftover, by simp [heq], hsize, by simpa using hjoin, hleft,
    by simp [heq], by simp [heq], ?_⟩
  intro hne
  have hbne : joinNL leftover ≠ "" := RtMonitor.joinNL_ne_empty leftover hne hlne
  rw [heq]
  simp only [DbStream.flush]
  rw [if_neg (by simpa [String.isEmpty_iff] using hbne)]
  simp

/-- C5 witness: batch size 2 with lines "a", "b", "c" — one automatic handoff
of "a\nb", leftover "c" flushed on demand. -/
theorem C5_handoff_exactly_at_batch_size_witness :
    0 < 2 ∧ (∀ l ∈ ["a", "b", "c"], l ≠ "") ∧
      (∃ (groups : List (List String)) (leftover : List String),
        (DbStream.writeLines (DbStream.init 2) ["a", "b", "c"]).sent =
            groups.map joinNL ∧
          (∀ g ∈ groups, g.length = 2) ∧
          groups.flatten ++ leftover = ["a", "b", "c"] ∧
          leftover.length < 2 ∧
          (DbStream.writeLines (DbStream.init 2) ["a", "b", "c"]).buffer =
            joinNL leftover ∧
          (DbStream.writeLines (DbStream.init 2) ["a", "b", "c"]).count =
            leftover.length ∧
          (leftover ≠ [] →
            ((DbStream.writeLines (DbStream.init 2) ["a", "b", "c"]).flush).sent =
                groups.map joinNL ++ [joinNL leftover] ∧
              ((DbStream.writeLines (DbStream.init 2) ["a", "b", "c"]).flush).buffer =
                "" ∧
              ((DbStream.writeLines (DbStream.init 2) ["a", "b", "c"]).flush).count =
                0)) :=
  ⟨by decide, by decide,
    C5_handoff_exactly_at_batch_size 2 (by decide) ["a", "b", "c"] (by decide)⟩

namespace RtMonitor

theorem writesOf_write_cons (l : String) (rest : List DbStream.Op) :
    DbStream.writesOf (DbStream.Op.write l :: rest) = l :: DbStream.writesOf rest := rfl

theorem writesOf_flush_cons (rest : List DbStream.Op) :
    DbStream.writesOf (DbStream.Op.doFlush :: rest) = DbStream.writesOf rest := rfl

/-- `flush` on the abstract state with no pending lines is a no-op. -/
theorem flush_abs_nil (N : Nat) (sent : List String) :
    DbStream.flush ⟨joinNL [], N, List.length ([] : List String), sent⟩ =
      ⟨joinNL [], N, List.length ([] : List String), sent⟩ := by
  simp [DbStream.flush, joinNL, String.isEmpty_iff]

/-- `flush` on the abstract state with pending lines hands off the joined
pending lines and resets the buffer and the counter. -/
theorem flush_abs_cons (N : Nat) (pending sent : List String)
    (hp : pending ≠ []) (hpne : ∀ x ∈ pending, x ≠ "") :
    DbStream.flush ⟨joinNL pending, N, pending.length, sent⟩ =
      ⟨joinNL [], N, List.length ([] : List String),
        sent ++ [joinNL pending]⟩ := by
  have hne := joinNL_ne_empty pending hp hpne
  simp only [DbStream.flush]
  rw [if_neg (by simpa [String.isEmpty_iff] using hne)]
  rfl

/-- Running any interleaving of `write_line` and `flush` calls from the
abstract state: the handed-off payloads extend by the `joinNL` of consecutive
non-empty groups of the appended lines, and the buffer keeps the yet-unsent
tail. -/
theorem runOps_groups (N : Nat) (hN : 0 < N) :
    ∀ (ops : List DbStream.Op) (pending sent : List String),
      pending.length < N → (∀ x ∈ pending, x ≠ "") →
      (∀ l : String, DbStream.Op.write l ∈ ops → l ≠ "") →
      ∃ (groups : List (List String)) (leftover : List String),
        DbStream.runOps ⟨joinNL pending, N, pending.length, sent⟩ ops =
          ⟨joinNL leftover, N, leftover.length, sent ++ groups.map joinNL⟩ ∧
        (∀ g ∈ groups, g ≠ [] ∧ ∀ x ∈ g, x ≠ "") ∧
        groups.flatten ++ leftover = pending ++ DbStream.writesOf ops ∧
        leftover.length < N ∧ (∀ x ∈ leftover, x ≠ "") := by
  intro ops
  induction ops with
  | nil =>
      intro pending sent hlen hpne _
      refine ⟨[], pending, ?_, ?_, ?_, hlen, hpne⟩
      · simp [DbStream.runOps]
      · intro g hg
        simp at hg
      · simp [DbStream.writesOf]
  | cons op rest ih =>
      intro pending sent hlen hpne hops
      cases op with
      | write l =>
          have hl : l ≠ "" := hops l (by simp)
          have hstep := write_line_abs N pending sent l hlen hpne hl
          have hrun : DbStream.runOps
              ⟨joinNL pending, N, pending.length, sent⟩
              (DbStream.Op.write l :: rest) =
              DbStream.runOps
                (DbStream.write_line ⟨joinNL pending, N, pending.length, sent⟩ l)
                rest := rfl
          by_cases hflush : pending.length + 1 = N
          · rw [if_pos hflush] at hstep
            obtain ⟨groups, leftover, heq, hgood, hjoin, hleft, hlne⟩ :=
              ih [] (sent ++ [joinNL (pending ++ [l])]) (by simpa using hN)
                (by simp) (fun x hx => hops x (by simp [hx]))
            refine ⟨(pending ++ [l]) :: groups, leftover, ?_, ?_, ?_, hleft, hlne⟩
            · rw [hrun, hstep, heq]
              simp
            · intro g hg
              rcases List.mem_cons.mp hg with h | h
              · subst h
                refine ⟨by simp, ?_⟩
                intro x hx
                rcases List.mem_append.mp hx with h | h
                · exact hpne x h
                · simp at h
                  simpa [h]
              · exact hgood g h
            · simp only [List.flatten_cons, List.append_assoc, writesOf_write_cons]
              simp at hjoin
              rw [hjoin]
              simp
          · rw [if_neg hflush] at hstep
            have hlen2 : (pending ++ [l]).length < N := by
              simp only [List.length_append, List.length_cons, List.length_nil]
              omega
            obtain ⟨groups, leftover, heq, hgood, hjoin, hleft, hlne⟩ :=
              ih (pending ++ [l]) sent hlen2
                (by
                  intro x hx
                  rcases List.mem_append.mp hx with h | h
                  · exact hpne x h
                  · simp at h
                    simpa [h])
                (fun x hx => hops x (by simp [hx]))
            refine ⟨groups, leftover, ?_, hgood, ?_, hleft, hlne⟩
            · rw [hrun, hstep, heq]
            · rw [hjoin]
              simp [writesOf_write_cons]
      | doFlush =>
          have hrun : DbStream.runOps
              ⟨joinNL pending, N, pending.length, sent⟩
              (DbStream.Op.doFlush :: rest) =
              DbStream.runOps
                (DbStream.flush ⟨joinNL pending, N, pending.length, sent⟩)
                rest := rfl
          by_cases hp : pending = []
          · subst hp
            have hstep := flush_abs_nil N sent
            obtain ⟨groups, leftover, heq, hgood, hjoin, hleft, hlne⟩ :=
              ih [] sent (by simpa using hN) (by simp)
                (fun x hx => hops x (by simp [hx]))
            refine ⟨groups, leftover, ?_, hgood, ?_, hleft, hlne⟩
            · rw [hrun, hstep, heq]
            · rw [hjoin]
              simp [writesOf_flush_cons]
          · have hstep := flush_abs_cons N pending sent hp hpne
            obtain ⟨groups, leftover, heq, hgood, hjoin, hleft, hlne⟩ :=
              ih [] (sent ++ [joinNL pending]) (by simpa using hN) (by simp)
                (fun x hx => hops x (by simp [hx]))
            refine ⟨pending :: groups, leftover, ?_, ?_, ?_, hleft, hlne⟩
            · rw [hrun, hstep, heq]
              simp
            · intro g hg
              rcases List.mem_cons.mp hg with h | h
              · subst h
                exact ⟨hp, hpne⟩
              · exact hgood g h
            · simp only [List.flatten_cons, List.append_assoc, writesOf_flush_cons]
              simp at hjoin
              rw [hjoin]

end RtMonitor

/-- C10. Every payload a `db_stream` hands to its `AsyncInfluxDBWriter` is a
non-empty string equal to the lines appended since the previous handoff joined
by single newline characters with no trailing newline (the `joinNL` of a
non-empty group of the written lines, the groups partitioning the written
lines in order); `flush()` on an empty buffer performs no handoff; and after
every handoff — whether triggered by `flush` or by `write_line` reaching the
batch size — the internal buffer is empty and the line counter is zero.
(Every line this program appends is a non-empty line-protocol line, hence the
non-emptiness hypothesis on the written lines.) -/
theorem C10_payloads_are_joined_lines (N : Nat) (hN : 0 < N)
    (ops : List DbStream.Op)
    (hops : ∀ l : String, DbStream.Op.write l ∈ ops → l ≠ "") :
    (∃ (groups : List (List String)) (leftover : List String),
        (DbStream.runOps (DbStream.init N) ops).sent = groups.map joinNL ∧
        (∀ g ∈ groups, g ≠ [] ∧ ∀ x ∈ g, x ≠ "") ∧
        groups.flatten ++ leftover = DbStream.writesOf ops ∧
        (DbStream.runOps (DbStream.init N) ops).buffer = joinNL leftover ∧
        (∀ p ∈ (DbStream.runOps (DbStream.init N) ops).sent, p ≠ "")) ∧
      (∀ t : DbStream, t.buffer = "" → t.flush = t) ∧
      (∀ t : DbStream, t.flush.sent ≠ t.sent →
        t.flush.buffer = "" ∧ t.flush.count = 0) ∧
      (∀ (t : DbStream) (l : String), (t.write_line l).sent ≠ t.sent →
        (t.write_line l).buffer = "" ∧ (t.write_line l).count = 0) := by
  have hflush_handoff : ∀ t : DbStream, t.flush.sent ≠ t.sent →
      t.flush.buffer = "" ∧ t.flush.count = 0 := by
    intro t h
    by_cases hb : t.buffer.isEmpty
    · rw [DbStream.flush, if_pos hb] at h
      exact absurd rfl h
    · rw [DbStream.flush, if_neg hb]
      exact ⟨rfl, rfl⟩
  refine ⟨?_, ?_, hflush_handoff, ?_⟩
  · obtain ⟨groups, leftover, heq, hgood, hjoin, hleft, hlne⟩ :=
      RtMonitor.runOps_groups N hN ops [] [] (by simpa using hN) (by simp) hops
    have hinit : DbStream.init N =
        (⟨joinNL [], N, List.length ([] : List String), []⟩ : DbStream) := rfl
    refine ⟨groups, leftover, ?_, hgood, by simpa using hjoin, ?_, ?_⟩
    · rw [hinit, heq]
      simp
    · rw [hinit, heq]
    · rw [hinit, heq]
      intro p hp
      simp only [List.nil_append, List.mem_map] at hp
      obtain ⟨g, hg, rfl⟩ := hp
      exact RtMonitor.joinNL_ne_empty g (hgood g hg).1 (hgood g hg).2
  · intro t ht
    rw [DbStream.flush, if_pos (by simp [ht, String.isEmpty_iff])]
  · intro t l h
    by_cases hc : t.batchSize ≤ t.count + 1
    · have hw : t.write_line l =
          DbStream.flush
            { t with
              buffer := if t.buffer.isEmpty then t.buffer ++ l
                else t.buffer ++ "\n" ++ l,
              count := t.count + 1 } := by
        rw [DbStream.write_line]
        simp only [if_pos hc]
      rw [hw] at h ⊢
      exact hflush_handoff _ h
    · have hw : t.write_line l =
          { t with
            buffer := if t.buffer.isEmpty then t.buffer ++ l
              else t.buffer ++ "\n" ++ l,
            count := t.count + 1 } := by
        rw [DbStream.write_line]
        simp only [if_neg hc]
      rw [hw] at h
      exact absurd rfl h

/-- C10 witness: batch size 1, writing "a" then flushing. -/
theorem C10_payloads_are_joined_lines_witness :
    0 < 1 ∧
      (∀ l : String,
        DbStream.Op.write l ∈ [DbStream.Op.write "a", DbStream.Op.doFlush] →
          l ≠ "") ∧
      ((∃ (groups : List (List String)) (leftover : List String),
          (DbStream.runOps (DbStream.init 1)
              [DbStream.Op.write "a", DbStream.Op.doFlush]).sent =
            groups.map joinNL ∧
          (∀ g ∈ groups, g ≠ [] ∧ ∀ x ∈ g, x ≠ "") ∧
          groups.flatten ++ leftover =
            DbStream.writesOf [DbStream.Op.write "a", DbStream.Op.doFlush] ∧
          (DbStream.runOps (DbStream.init 1)
              [DbStream.Op.write "a", DbStream.Op.doFlush]).buffer =
            joinNL leftover ∧
          (∀ p ∈ (DbStream.runOps (DbStream.init 1)
              [DbStream.Op.write "a", DbStream.Op.doFlush]).sent, p ≠ "")) ∧
        (∀ t : DbStream, t.buffer = "" → t.flush = t) ∧
        (∀ t : DbStream, t.flush.sent ≠ t.sent →
          t.flush.buffer = "" ∧ t.flush.count = 0) ∧
        (∀ (t : DbStream) (l : String), (t.write_line l).sent ≠ t.sent →
          (t.write_line l).buffer = "" ∧ (t.write_line l).count = 0)) :=
  ⟨by decide,
    by
      intro l hl
      simp at hl
      subst hl
      decide,
    C10_payloads_are_joined_lines 1 (by decide)
      [DbStream.Op.write "a", DbStream.Op.doFlush]
      (by
        intro l hl
        simp at hl
        subst hl
        decide)⟩

namespace RtMonitor

theorem tdiv_le_of_nonneg (a : Int) (b : Nat) (h : 0 ≤ a) :
    a.tdiv (b : Int) ≤ a := by
  obtain ⟨n, rfl⟩ : ∃ n : ℕ, a = (n : ℤ) := ⟨a.toNat, (Int.toNat_of_nonneg h).symm⟩
  have h1 : ((n : ℤ)).tdiv ((b : ℕ) : ℤ) = ((n / b : ℕ) : ℤ) := rfl
  rw [h1]
  exact_mod_cast Nat.div_le_self n b

end RtMonitor

/-- C8 counterexample. At base batch size 1 (an integer greater than 0,
accepted by the configuration), the default policy assigns the
low-cardinality metric "mem" a batch size of 10 — strictly larger than the
batch size 1 it assigns the high-cardinality metric "cpu", because the
scaled-down value `1 / 100 = 0` is clamped up to the floor of 10. -/
theorem C8_base_one_mem_exceeds_cpu :
    (0 : Int) < 1 ∧
      RtMonitor.get_batch_size "mem" 1 = 10 ∧
      RtMonitor.get_batch_size "cpu" 1 = 1 ∧
      ¬ RtMonitor.get_batch_size "mem" 1 ≤ RtMonitor.get_batch_size "cpu" 1 := by
  refine ⟨by decide, ?_, ?_, ?_⟩ <;> decide

/-- C8 amended. For every base batch size of at least 10, the default
per-metric batch-size policy assigns a low-cardinality metric
(mem, disk, net, ib) a batch size no larger than the one it assigns a
high-cardinality metric (cpu, cpufreq) for the same base value; for base
values between 1 and 9 the clamp to a minimum of 10 makes the
low-cardinality batch size exceed the base. -/
theorem C8_low_cardinality_not_larger_from_ten (base : Int) (hbase : 10 ≤ base)
    (low high : String)
    (hlow : low ∈ (["mem", "disk", "ib", "net"] : List String))
    (hhigh : high ∈ (["cpu", "cpufreq"] : List String)) :
    RtMonitor.get_batch_size low base ≤ RtMonitor.get_batch_size high base := by
  have hb0 : (0 : Int) ≤ base := by omega
  have h100 : base.tdiv 100 ≤ base := by
    have := RtMonitor.tdiv_le_of_nonneg base 100 hb0
    norm_num at this
    exact this
  have h10 : base.tdiv 10 ≤ base := by
    have := RtMonitor.tdiv_le_of_nonneg base 10 hb0
    norm_num at this
    exact this
  have hhigh_val : RtMonitor.get_batch_size high base = base := by
    simp only [List.mem_cons, List.mem_singleton] at hhigh
    rcases hhigh with rfl | rfl | h
    · simp [RtMonitor.get_batch_size]
    · simp [RtMonitor.get_batch_size]
    · simp at h
  rw [hhigh_val]
  simp only [List.mem_cons, List.mem_singleton] at hlow
  rcases hlow with rfl | rfl | rfl | rfl | h
  · simp only [RtMonitor.get_batch_size]
    norm_num
    split <;> omega
  · simp only [RtMonitor.get_batch_size]
    norm_num
    split <;> omega
  · simp only [RtMonitor.get_batch_size]
    norm_num
    split <;> omega
  · simp only [RtMonitor.get_batch_size]
    norm_num
    split <;> omega
  · simp at h

/-- C8 witness: base 100, low-cardinality "mem" against high-cardinality
"cpu". -/
theorem C8_low_cardinality_not_larger_from_ten_witness :
    (10 : Int) ≤ 100 ∧
      "mem" ∈ (["mem", "disk", "ib", "net"] : List String) ∧
      "cpu" ∈ (["cpu", "cpufreq"] : List String) ∧
      RtMonitor.get_batch_size "mem" 100 ≤ RtMonitor.get_batch_size "cpu" 100 :=
  ⟨by decide, by decide, by decide,
    C8_low_cardinality_not_larger_from_ten 100 (by decide) "mem" "cpu"
      (by decide) (by decide)⟩

/-- C4 counterexample. The cpu consumer loop `cpu::start_sampling<db_stream>`
has no diff stage: the first snapshot observed for the newly-seen entity
(core 0) is forwarded to the sink as-is, where the claim requires it to be
stored as a baseline and never forwarded. -/
theorem C4_cpu_db_consumer_forwards_first_snapshot :
    cpuStartSamplingDb [[⟨0, 0, 0, 0, 0, 0, 0, 0, 0, 0, 0, 0⟩]] =
      [⟨0, 0, 0, 0, 0, 0, 0, 0, 0, 0, 0, 0⟩] ∧
      cpuStartSamplingDb [[⟨0, 0, 0, 0, 0, 0, 0, 0, 0, 0, 0, 0⟩]] ≠ [] := by
  constructor
  · rfl
  · decide

namespace RtMonitor

theorem netLoop_spec (rest : List NetData) :
    ∀ (s0 s1 : NetData) (b : Bool),
      netLoop (s0, s1) b rest =
        List.zipWith NetData.sub rest ((if b then s1 else s0) :: rest) := by
  induction rest with
  | nil =>
      intro s0 s1 b
      rfl
  | cons r rest ih =>
      intro s0 s1 b
      cases b with
      | false =>
          simpa [netLoop] using ih s0 r true
      | true =>
          simpa [netLoop] using ih r s1 false

end RtMonitor

/-- C4 amended. Of the cited cumulative-metric consumer loops, only the net
one keeps a baseline: it stores the first snapshot and never forwards it, and
each subsequent snapshot yields exactly one forwarded rate sample — the
difference against the previous snapshot — after which it becomes the new
baseline.  The cpu db consumer loop has no diff stage and forwards every
snapshot, including the first (see the counterexample). -/
theorem C4_net_first_is_baseline_then_one_rate_each (r0 : NetData)
    (rest : List NetData) :
    netStartSamplingDb (r0 :: rest) = List.zipWith NetData.sub rest (r0 :: rest) ∧
      (netStartSamplingDb (r0 :: rest)).length = rest.length := by
  have h := RtMonitor.netLoop_spec rest r0 ⟨0, 0, 0⟩ false
  constructor
  · simpa [netStartSamplingDb] using h
  · rw [show netStartSamplingDb (r0 :: rest) = netLoop (r0, ⟨0, 0, 0⟩) false rest
        from rfl, h]
    simp

/-- C6. Subtracting two snapshots whose entity identity keys differ fails:
the cpu subtraction asserts on a core-id mismatch and the disk subtraction
throws on any device-name/major/minor/index mismatch; when the keys match
both produce a field-wise difference, so a difference is never silently
computed across different entities. -/
theorem C6_entity_key_mismatch_errors :
    (∀ a b : CpuSample, a.cpuid ≠ b.cpuid →
        CpuSample.sub a b =
          Except.error "assertion failed: sample.cpuid == cpuid") ∧
      (∀ a b : CpuSample, a.cpuid = b.cpuid →
        ∃ c, CpuSample.sub a b = Except.ok c) ∧
      (∀ a b : DiskSample,
        a.device ≠ b.device ∨ a.major ≠ b.major ∨ a.minor ≠ b.minor ∨
            a.index ≠ b.index →
          DiskSample.sub a b =
            Except.error "Cannot subtract samples from different devices") ∧
      (∀ a b : DiskSample,
        a.device = b.device ∧ a.major = b.major ∧ a.minor = b.minor ∧
            a.index = b.index →
          ∃ c, DiskSample.sub a b = Except.ok c) := by
  refine ⟨?_, ?_, ?_, ?_⟩
  · intro a b h
    rw [CpuSample.sub, if_neg h]
  · intro a b h
    exact ⟨_, by rw [CpuSample.sub, if_pos h]⟩
  · intro a b h
    rw [DiskSample.sub, if_pos h]
  · intro a b h
    exact ⟨_, by rw [DiskSample.sub, if_neg (by simp [h.1, h.2.1, h.2.2.1, h.2.2.2])]⟩

/-- C6 witness: cpu cores 0 and 1, disk devices "sda" and "sdb". -/
theorem C6_entity_key_mismatch_errors_witness :
    ((0 : Nat) ≠ 1 ∧
      CpuSample.sub ⟨0, 0, 0, 0, 0, 0, 0, 0, 0, 0, 0, 0⟩
          ⟨0, 1, 0, 0, 0, 0, 0, 0, 0, 0, 0, 0⟩ =
        Except.error "assertion failed: sample.cpuid == cpuid") ∧
      (("sda" : String) ≠ "sdb" ∧
        DiskSample.sub
            ⟨0, 8, 0, 0, "sda", 0, 0, 0, 0, 0, 0, 0, 0, 0, 0, 0, 0, 0, 0, 0, 0, 0⟩
            ⟨0, 8, 0, 0, "sdb", 0, 0, 0, 0, 0, 0, 0, 0, 0, 0, 0, 0, 0, 0, 0, 0, 0⟩ =
          Except.error "Cannot subtract samples from different devices") :=
  ⟨⟨by decide,
      C6_entity_key_mismatch_errors.1 _ _ (by decide)⟩,
    ⟨by decide,
      C6_entity_key_mismatch_errors.2.2.1 _ _ (Or.inl (by decide))⟩⟩

/-- C9. The net snapshot subtraction is total: when the minuend's timestamp
is not strictly later than the subtrahend's, the elapsed time `dt` is
non-positive and the result carries zero transferred and received rates (no
division by a zero or negative interval); otherwise each rate is the byte
difference divided by 1024 times the elapsed seconds, truncated to an
integer. -/
theorem C9_net_sub_total_and_guarded (a b : NetData) :
    (a.timestamp ≤ b.timestamp →
      NetData.sub a b =
        { timestamp := a.timestamp, transferred := 0, received := 0 }) ∧
      (b.timestamp < a.timestamp →
        NetData.sub a b =
          { timestamp := a.timestamp,
            transferred :=
              ratTrunc (((a.transferred - b.transferred : Int) : ℚ) * 1000000000 /
                (1024 * ((a.timestamp - b.timestamp : Int) : ℚ))),
            received :=
              ratTrunc (((a.received - b.received : Int) : ℚ) * 1000000000 /
                (1024 * ((a.timestamp - b.timestamp : Int) : ℚ))) }) := by
  constructor
  · intro h
    have hz : ((a.timestamp - b.timestamp : Int) : ℚ) ≤ 0 := by
      exact_mod_cast sub_nonpos.mpr h
    have hd : ((a.timestamp - b.timestamp : Int) : ℚ) / 1000000000 ≤ 0 := by
      have h9 : (0 : ℚ) < 1000000000 := by norm_num
      rw [div_nonpos_iff]
      exact Or.inr ⟨hz, le_of_lt h9⟩
    simp only [NetData.sub]
    rw [if_pos hd]
  · intro h
    have hz : (0 : ℚ) < ((a.timestamp - b.timestamp : Int) : ℚ) := by
      have h1 : (0 : ℤ) < a.timestamp - b.timestamp := by omega
      exact_mod_cast h1
    have hdt : ¬ ((a.timestamp - b.timestamp : Int) : ℚ) / 1000000000 ≤ 0 := by
      push_neg
      exact div_pos hz (by norm_num)
    have harg : ∀ d : ℚ,
        d / (1024 * (((a.timestamp - b.timestamp : Int) : ℚ) / 1000000000)) =
          d * 1000000000 / (1024 * ((a.timestamp - b.timestamp : Int) : ℚ)) := by
      intro d
      field_simp
    simp only [NetData.sub]
    rw [if_neg hdt, harg, harg]

/-- C9 witness: equal timestamps yield zero rates despite non-zero byte
differences; a one-nanosecond step yields the truncated exact rates. -/
theorem C9_net_sub_total_and_guarded_witness :
    ((0 : Int) ≤ 0 ∧
      NetData.sub ⟨0, 5, 7⟩ ⟨0, 1, 2⟩ =
        { timestamp := 0, transferred := 0, received := 0 }) ∧
      ((0 : Int) < 1 ∧
        NetData.sub ⟨1, 2048, 1024⟩ ⟨0, 0, 0⟩ =
          { timestamp := 1,
            transferred :=
              ratTrunc (((2048 - 0 : Int) : ℚ) * 1000000000 /
                (1024 * ((1 - 0 : Int) : ℚ))),
            received :=
              ratTrunc (((1024 - 0 : Int) : ℚ) * 1000000000 /
                (1024 * ((1 - 0 : Int) : ℚ))) }) :=
  ⟨⟨by decide, (C9_net_sub_total_and_guarded ⟨0, 5, 7⟩ ⟨0, 1, 2⟩).1 (by decide)⟩,
    ⟨by decide,
      (C9_net_sub_total_and_guarded ⟨1, 2048, 1024⟩ ⟨0, 0, 0⟩).2 (by decide)⟩⟩

namespace RtMonitor

/-- Counting the connections that received the complete `len`-byte request:
exactly one when the send loop completed, zero otherwise.  In particular no
connection ever receives the request twice and no two connections both
receive it — a failure can only strike while `total_sent < len`, so a
connection closed by a failure received a proper prefix. -/
theorem sendLoop_complete_count (len : Nat) :
    ∀ (sends : List SendEv) (conns : List Bool) (totalSent : Nat),
      ((sendLoop len totalSent sends conns).connBytes.countP
          (fun m => decide (len ≤ m))) =
        if (sendLoop len totalSent sends conns).delivered then 1 else 0 := by
  intro sends
  induction sends with
  | nil =>
      intro conns totalSent
      by_cases h : len ≤ totalSent
      · unfold sendLoop
        rw [if_pos h]
        simp [h]
      · unfold sendLoop
        rw [if_neg h]
        simp [h]
  | cons ev rest ih =>
      intro conns totalSent
      by_cases h : len ≤ totalSent
      · unfold sendLoop
        rw [if_pos h]
        simp [h]
      · cases ev with
        | ok n =>
            unfold sendLoop
            rw [if_neg h]
            exact ih conns (totalSent + n)
        | fail =>
            cases conns with
            | nil =>
                unfold sendLoop
                rw [if_neg h]
                simp [h]
            | cons c cr =>
                cases c with
                | true =>
                    unfold sendLoop
                    rw [if_neg h]
                    simp [List.countP_cons, h, ih cr 0]
                | false =>
                    unfold sendLoop
                    rw [if_neg h]
                    simp [h]

end RtMonitor

/-- C7. For the delivery worker's send path: (1) across every possible
sequence of send and reconnect outcomes, the number of connections that
receive the complete request equals one when the send completed and zero
otherwise — the batch is delivered at most once and its lines are never
duplicated across a retry; (2) on a transient failure (a partial send of
`n1 < len` bytes followed by a failed send, then a successful reconnect and a
full send), the worker reconnects exactly once, retransmits the batch from
the beginning on the new connection, and delivers it exactly once; (3) when
the reconnect after the failure fails, the batch is dropped — not delivered,
not resent — and the call returns so the worker moves on. -/
theorem C7_reconnect_once_retry_no_duplicates :
    (∀ (len : Nat) (connected : Bool) (sends : List SendEv) (conns : List Bool),
        ((send_request len connected sends conns).connBytes.countP
            (fun m => decide (len ≤ m))) =
          if (send_request len connected sends conns).delivered then 1 else 0) ∧
      (∀ (len n1 n2 : Nat) (cr : List Bool), n1 < len → len ≤ n2 →
        send_request len true [SendEv.ok n1, SendEv.fail, SendEv.ok n2]
            (true :: cr) =
          { delivered := true, reconnects := 1, dropped := false,
            connBytes := [n1, n2] }) ∧
      (∀ (len n1 : Nat) (rest : List SendEv) (cr : List Bool), n1 < len →
        send_request len true (SendEv.ok n1 :: SendEv.fail :: rest)
            (false :: cr) =
          { delivered := false, reconnects := 1, dropped := true,
            connBytes := [n1] }) := by
  refine ⟨?_, ?_, ?_⟩
  · intro len connected sends conns
    cases connected with
    | true =>
        simp only [send_request, if_pos rfl]
        exact RtMonitor.sendLoop_complete_count len sends conns 0
    | false =>
        cases conns with
        | nil => simp [send_request]
        | cons c cr =>
            cases c with
            | true =>
                simp only [send_request]
                exact RtMonitor.sendLoop_complete_count len sends cr 0
            | false => simp [send_request]
  · intro len n1 n2 cr h1 h2
    have h0 : ¬ len ≤ 0 := by omega
    have hn1 : ¬ len ≤ n1 := by omega
    simp [send_request, sendLoop, h0, hn1, h2]
  · intro len n1 rest cr h1
    have h0 : ¬ len ≤ 0 := by omega
    have hn1 : ¬ len ≤ n1 := by omega
    simp [send_request, sendLoop, h0, hn1]

/-- C7 witness: a 5-byte request; a 3-byte partial send then a failure, one
successful reconnect, then a full 5-byte send — delivered once with one
reconnect; and the same failure with a failed reconnect — dropped. -/
theorem C7_reconnect_once_retry_no_duplicates_witness :
    (((send_request 5 true [SendEv.ok 5] []).connBytes.countP
        (fun m => decide (5 ≤ m))) =
      if (send_request 5 true [SendEv.ok 5] []).delivered then 1 else 0) ∧
      ((3 : Nat) < 5 ∧ (5 : Nat) ≤ 5 ∧
        send_request 5 true [SendEv.ok 3, SendEv.fail, SendEv.ok 5] [true] =
          { delivered := true, reconnects := 1, dropped := false,
            connBytes := [3, 5] }) ∧
      ((3 : Nat) < 5 ∧
        send_request 5 true [SendEv.ok 3, SendEv.fail] [false] =
          { delivered := false, reconnects := 1, dropped := true,
            connBytes := [3] }) :=
  ⟨C7_reconnect_once_retry_no_duplicates.1 5 true [SendEv.ok 5] [],
    ⟨by decide, by decide,
      C7_reconnect_once_retry_no_duplicates.2.1 5 3 5 [] (by decide) (by decide)⟩,
    ⟨by decide,
      C7_reconnect_once_retry_no_duplicates.2.2 5 3 [] [] (by decide)⟩⟩
